import Mathlib

/-!
Verification of the CriaCode v2 deployment orchestration engine
(`DeployEngine` in the backend source: `deploy-engine.js`).

The engine is embedded shallowly: the database (`projects`, `files`,
`deployments`, `build_logs` tables) is a record of lists, every external
side effect (shell command, filesystem write, websocket emission) is
recorded in an event trace, and the outcome of each external command is
given by an environment oracle keyed by the command string.  JavaScript
exceptions are modelled with an `Except` layer over explicit state
passing, so that state changes made before a throw persist, exactly as
database writes persist when a JS promise rejects.
-/

/-- Identifies the call site of an external-command invocation
(`execPromise` in the source), so that theorems can talk about "the
container-start invocation" or "the proxy reload" independently of the
literal command string. -/
inductive ExecSite where
  | installReact
  | buildReact
  | installNext
  | buildNext
  | dockerBuild
  | dockerStopOld
  | dockerRmOld
  | dockerRun
  | nginxTest
  | nginxReload
  | sdStop
  | sdRm
deriving DecidableEq, Repr

/-- One observable side effect of the engine. -/
inductive Event where
  | execCmd (site : ExecSite) (cmd : String)
  | fsMkdir (path : String)
  | fsWrite (path : String) (content : String)
  | fsUnlink (path : String)
  | fsSymlink (target : String) (link : String)
  | wsEmit (room : String) (message : String)
deriving DecidableEq, Repr

/-- A JavaScript runtime error: either a thrown `new Error(msg)` (also
used for rejected `execPromise` calls) or a `ReferenceError` caused by
reading an identifier that is not in scope. -/
inductive JsError where
  | jsError (msg : String)
  | referenceError (varName : String)
deriving DecidableEq, Repr

/-- The `message` property of a JavaScript error object. -/
def JsError.message : JsError → String
  | .jsError m => m
  | .referenceError v => v ++ " is not defined"

/-- Row of the `projects` table (the columns the engine reads). -/
structure Project where
  id : Nat
  user_id : Nat
  framework : String
  build_command : Option String
  start_command : Option String
  output_dir : Option String
  port : Option Nat
deriving DecidableEq, Repr

/-- Row of the `files` table (the columns the engine reads). -/
structure FileRow where
  project_id : Nat
  path : String
  content : Option String
deriving DecidableEq, Repr

/-- Row of the `deployments` table. -/
structure Deployment where
  id : Nat
  project_id : Nat
  status : String
  container_id : Option String
  container_name : Option String
  url : Option String
  commit_message : String
  build_duration : Option Nat
deriving DecidableEq, Repr

/-- Row of the `build_logs` table. -/
structure BuildLog where
  deployment_id : Nat
  log_type : String
  message : String
deriving DecidableEq, Repr

/-- The persistent store.  `nextDeploymentId` models the `SERIAL`
primary key of the `deployments` table. -/
structure DB where
  projects : List Project
  files : List FileRow
  deployments : List Deployment
  build_logs : List BuildLog
  nextDeploymentId : Nat
deriving DecidableEq, Repr

/-- Mutable world state threaded through a run: the database, the trace
of external effects, and a tick counter feeding `Date.now()`. -/
structure St where
  db : DB
  trace : List Event
  ticks : Nat
deriving DecidableEq, Repr

/-- Environment oracle: outcome of each external command (`Except.error`
is a non-zero exit / timeout with the error message the JS `exec`
callback would produce), and the value returned by the n-th call to
`Date.now()`. -/
structure Env where
  exec : String → Except String String
  time : Nat → Nat

/-- Decidable equality for `Except`, so that concrete run results can be
checked by `decide`. -/
instance {ε α : Type} [DecidableEq ε] [DecidableEq α] : DecidableEq (Except ε α) := fun x y =>
  match x, y with
  | Except.ok a, Except.ok b =>
      if h : a = b then Decidable.isTrue (congrArg Except.ok h)
      else Decidable.isFalse (fun hc => h (Except.ok.inj hc))
  | Except.error e1, Except.error e2 =>
      if h : e1 = e2 then Decidable.isTrue (congrArg Except.error h)
      else Decidable.isFalse (fun hc => h (Except.error.inj hc))
  | Except.ok _, Except.error _ => Decidable.isFalse (fun hc => Except.noConfusion hc)
  | Except.error _, Except.ok _ => Decidable.isFalse (fun hc => Except.noConfusion hc)

/-- Computation that may throw a JavaScript error; state changes made
before the throw persist. -/
def M (α : Type) : Type := St → Except JsError α × St

/-- Monad unit for `M`. -/
def M.pure (a : α) : M α := fun s => (Except.ok a, s)

/-- Monad sequencing for `M`: an error short-circuits but keeps the
state reached so far. -/
def M.bind (x : M α) (f : α → M β) : M β := fun s =>
  match x s with
  | (Except.ok a, s1) => f a s1
  | (Except.error e, s1) => (Except.error e, s1)

instance : Monad M where
  pure := M.pure
  bind := M.bind

/-- Thrown-error constructor for `M`. -/
def M.throw (e : JsError) : M α := fun s => (Except.error e, s)

/-- Models a JavaScript try/catch block for `M`. -/
def M.tryCatch (x : M α) (h : JsError → M α) : M α := fun s =>
  match x s with
  | (Except.ok a, s1) => (Except.ok a, s1)
  | (Except.error e, s1) => h e s1

/-- Read the current state. -/
def M.getS : M St := fun s => (Except.ok s, s)

/-- Apply a pure state update. -/
def M.modifyS (f : St → St) : M Unit := fun s => (Except.ok (), f s)

/-- Field deploysDir set in the engine constructor. -/
def deploysDir : String := "/var/criacode/deploys"

/-- Field nginxConfigDir set in the engine constructor. -/
def nginxConfigDir : String := "/etc/nginx/sites-available"

/-- Field nginxEnabledDir set in the engine constructor. -/
def nginxEnabledDir : String := "/etc/nginx/sites-enabled"

/-- Models path.join for the separator-free path fragments the engine
uses. -/
def pathJoin (a b : String) : String := a ++ "/" ++ b

/-- Models path.dirname: everything before the last separator, and a
dot when the path has no separator. -/
def pathDirname (p : String) : String :=
  let parts := p.splitOn "/"
  if parts.length ≤ 1 then "." else String.intercalate "/" parts.dropLast

/-- Models Date.now: consumes one tick of the environment clock. -/
def dateNow (env : Env) : M Nat :=
  fun s => (Except.ok (env.time s.ticks), { s with ticks := s.ticks + 1 })

/-- Record one side-effect event (filesystem calls are modelled as
succeeding; no claim concerns filesystem denial). -/
def emitEvent (e : Event) : M Unit :=
  M.modifyS fun s => { s with trace := s.trace ++ [e] }

/-- Models execPromise: records the invocation, then returns the
captured stdout or throws the command's error. -/
def execPromise (env : Env) (site : ExecSite) (cmd : String) : M String := fun s =>
  let s1 := { s with trace := s.trace ++ [Event.execCmd site cmd] }
  match env.exec cmd with
  | Except.ok out => (Except.ok out, s1)
  | Except.error msg => (Except.error (JsError.jsError msg), s1)

/-- Models createDeployDirectory. -/
def createDeployDirectory (projectId : Nat) : M String := do
  let projectDir := pathJoin deploysDir ("project-" ++ toString projectId)
  emitEvent (Event.fsMkdir projectDir)
  pure projectDir

/-- The `for (const file of files)` loop body of `saveProjectFiles`:
`mkdir -p` the parent directory, then write the content (empty string
when the `content` column is NULL, mirroring `file.content || ''`). -/
def writeProjectFiles (projectDir : String) : List FileRow → M Unit
  | [] => pure ()
  | file :: rest => do
    let filePath := pathJoin projectDir file.path
    emitEvent (Event.fsMkdir (pathDirname filePath))
    emitEvent (Event.fsWrite filePath (file.content.getD ""))
    writeProjectFiles projectDir rest

/-- Models saveProjectFiles. -/
def saveProjectFiles (projectId : Nat) (files : List FileRow) : M String := do
  let projectDir ← createDeployDirectory projectId
  writeProjectFiles projectDir files
  pure projectDir

/-- Models addBuildLog: inserts one
`build_logs` row and broadcasts it on the deployment's websocket
room. -/
def addBuildLog (deploymentId : Nat) (logType message : String) : M Unit :=
  M.modifyS fun s =>
    { s with
      db := { s.db with
                build_logs := s.db.build_logs ++ [⟨deploymentId, logType, message⟩] }
      trace := s.trace ++ [Event.wsEmit ("deployment-" ++ toString deploymentId) message] }

/-- Models buildReactProject: install,
then run the project's build command (default `npm run build`); on any
failure append an error log and rethrow. -/
def buildReactProject (env : Env) (projectDir : String) (deploymentId : Nat)
    (project : Project) : M Bool :=
  M.tryCatch
    (do
      addBuildLog deploymentId "info" "📦 Instalando dependências..."
      let installOut ← execPromise env ExecSite.installReact "npm install"
      addBuildLog deploymentId "info" installOut
      addBuildLog deploymentId "info" "🔨 Construindo projeto..."
      let buildCommand := project.build_command.getD "npm run build"
      let buildOut ← execPromise env ExecSite.buildReact buildCommand
      addBuildLog deploymentId "info" buildOut
      pure true)
    (fun e => do
      addBuildLog deploymentId "error" ("❌ Erro no build: " ++ e.message)
      M.throw e)

/-- Models buildNextProject: like the
React build but with a fixed `npm run build` command. -/
def buildNextProject (env : Env) (projectDir : String) (deploymentId : Nat)
    (project : Project) : M Bool :=
  M.tryCatch
    (do
      addBuildLog deploymentId "info" "📦 Instalando dependências Next.js..."
      let installOut ← execPromise env ExecSite.installNext "npm install"
      addBuildLog deploymentId "info" installOut
      addBuildLog deploymentId "info" "🔨 Construindo Next.js..."
      let buildOut ← execPromise env ExecSite.buildNext "npm run build"
      addBuildLog deploymentId "info" buildOut
      pure true)
    (fun e => do
      addBuildLog deploymentId "error" ("❌ Erro no build: " ++ e.message)
      M.throw e)

/-- The Dockerfile template for `react` / `html` projects. -/
def reactDockerfileFor (project : Project) : String :=
  "\nFROM node:18-alpine AS builder\nWORKDIR /app\nCOPY package*.json ./\nRUN npm install\nCOPY . .\nRUN "
    ++ project.build_command.getD "npm run build"
    ++ "\n\nFROM nginx:alpine\nCOPY --from=builder /app/"
    ++ project.output_dir.getD "dist"
    ++ " /usr/share/nginx/html\nCOPY nginx-spa.conf /etc/nginx/conf.d/default.conf\nEXPOSE 80\nCMD [\"nginx\", \"-g\", \"daemon off;\"]\n      "

/-- The static-file-server config written next to the SPA Dockerfile. -/
def spaNginxConf : String :=
  "\nserver \x7b\n    listen 80;\n    root /usr/share/nginx/html;\n    index index.html;\n    \n    location / \x7b\n        try_files $uri $uri/ /index.html;\n    \x7d\n    \n    gzip on;\n    gzip_types text/plain text/css application/json application/javascript text/xml application/xml;\n\x7d\n      "

/-- The Dockerfile template for `nextjs` projects. -/
def nextDockerfileFor (project : Project) : String :=
  "\nFROM node:18-alpine\nWORKDIR /app\nCOPY package*.json ./\nRUN npm install\nCOPY . .\nRUN npm run build\nEXPOSE "
    ++ toString (project.port.getD 3000)
    ++ "\nCMD [\"npm\", \"start\"]\n      "

/-- The Dockerfile template for `node` projects. -/
def nodeDockerfileFor (project : Project) : String :=
  "\nFROM node:18-alpine\nWORKDIR /app\nCOPY package*.json ./\nRUN npm install --production\nCOPY . .\nEXPOSE "
    ++ toString (project.port.getD 3000)
    ++ "\nCMD [\""
    ++ project.start_command.getD "node index.js"
    ++ "\"]\n      "

/-- Models createDockerfile: the source initialises
`dockerfile` to the empty string and only the three recognised branch
groups assign it, so an unrecognised framework writes an empty
Dockerfile.  The `react`/`html` branch also writes `nginx-spa.conf`
before the Dockerfile write at the end of the function. -/
def createDockerfile (projectDir : String) (project : Project) : M Unit := do
  if project.framework == "react" || project.framework == "html" then
    emitEvent (Event.fsWrite (pathJoin projectDir "nginx-spa.conf") spaNginxConf)
    emitEvent (Event.fsWrite (pathJoin projectDir "Dockerfile") (reactDockerfileFor project))
  else if project.framework == "nextjs" then
    emitEvent (Event.fsWrite (pathJoin projectDir "Dockerfile") (nextDockerfileFor project))
  else if project.framework == "node" then
    emitEvent (Event.fsWrite (pathJoin projectDir "Dockerfile") (nodeDockerfileFor project))
  else
    emitEvent (Event.fsWrite (pathJoin projectDir "Dockerfile") "")

/-- The line hostPort = 10000 + projectId in `createContainer`: the port
allocator, a pure function of the project id. -/
def hostPortFor (projectId : Nat) : Nat := 10000 + projectId

/-- Return value of `createContainer`. -/
structure ContainerInfo where
  containerId : String
  containerName : String
  hostPort : Nat
deriving DecidableEq, Repr

/-- The `for (const deploy of oldDeployments)` loop of
`createContainer`: stop and remove each previously running container
that has a recorded name. -/
def stopOldContainers (env : Env) : List Deployment → M Unit
  | [] => pure ()
  | dep :: rest =>
    match dep.container_name with
    | some cn => do
      let _ ← execPromise env ExecSite.dockerStopOld ("docker stop " ++ cn)
      let _ ← execPromise env ExecSite.dockerRmOld ("docker rm " ++ cn)
      stopOldContainers env rest
    | none => stopOldContainers env rest

/-- Models createContainer:
write the Dockerfile, build the image, best-effort stop of superseded
running containers (errors swallowed by the inner try/catch), start the
new container, return its id, name and host port. -/
def createContainer (env : Env) (projectId deploymentId : Nat) (project : Project)
    (projectDir : String) : M ContainerInfo := do
  let ts ← dateNow env
  let containerName := "criacode-project-" ++ toString projectId ++ "-" ++ toString ts
  let port := project.port.getD 3000
  let hostPort := hostPortFor projectId
  M.tryCatch
    (do
      addBuildLog deploymentId "info" "🐳 Criando container Docker..."
      createDockerfile projectDir project
      addBuildLog deploymentId "info" "🔨 Construindo imagem Docker..."
      let imageName := "criacode-" ++ toString projectId ++ ":latest"
      let _ ← execPromise env ExecSite.dockerBuild ("docker build -t " ++ imageName ++ " .")
      M.tryCatch
        (do
          let s ← M.getS
          let oldDeployments := s.db.deployments.filter fun d =>
            d.project_id == projectId && d.status == "running" && d.id != deploymentId
          stopOldContainers env oldDeployments)
        (fun _ => pure ())
      addBuildLog deploymentId "info" "🚀 Iniciando container..."
      let stdout ← execPromise env ExecSite.dockerRun
        ("docker run -d --name " ++ containerName ++ " -p " ++ toString hostPort ++ ":"
          ++ toString port ++ " --restart unless-stopped " ++ imageName)
      let containerId := stdout.trim
      addBuildLog deploymentId "info" ("✅ Container criado: " ++ containerName)
      pure (ContainerInfo.mk containerId containerName hostPort))
    (fun e => do
      addBuildLog deploymentId "error" ("❌ Erro ao criar container: " ++ e.message)
      M.throw e)

/-- The serverName selection in `configureNginx`: the public
hostname is the custom domain when supplied, else the synthesized
per-project hostname. -/
def serverNameFor (projectId : Nat) (domain : Option String) : String :=
  domain.getD ("project-" ++ toString projectId ++ ".local")

/-- The reverse-proxy routing rule rendered by `configureNginx`. -/
def proxyConfFor (serverName : String) (hostPort : Nat) : String :=
  "\nserver \x7b\n    listen 80;\n    server_name " ++ serverName
    ++ ";\n\n    location / \x7b\n        proxy_pass http://localhost:" ++ toString hostPort
    ++ ";\n        proxy_http_version 1.1;\n        proxy_set_header Upgrade $http_upgrade;\n        proxy_set_header Connection \x27upgrade\x27;\n        proxy_set_header Host $host;\n        proxy_cache_bypass $http_upgrade;\n        proxy_set_header X-Real-IP $remote_addr;\n        proxy_set_header X-Forwarded-For $proxy_add_x_forwarded_for;\n        proxy_set_header X-Forwarded-Proto $scheme;\n    \x7d\n\x7d\n    "

/-- Models configureNginx: write the rule,
replace the activation symlink (tolerating a missing old link), then
`nginx -t` and only afterwards `nginx -s reload`; any failure is
rethrown after the source's `console.error`. -/
def configureNginx (env : Env) (projectId : Nat) (hostPort : Nat)
    (domain : Option String) : M String := do
  let serverName := serverNameFor projectId domain
  let configFile := "criacode-project-" ++ toString projectId
  let nginxConfig := proxyConfFor serverName hostPort
  M.tryCatch
    (do
      let configPath := pathJoin nginxConfigDir configFile
      emitEvent (Event.fsWrite configPath nginxConfig)
      let enabledPath := pathJoin nginxEnabledDir configFile
      M.tryCatch (emitEvent (Event.fsUnlink enabledPath)) (fun _ => pure ())
      emitEvent (Event.fsSymlink configPath enabledPath)
      let _ ← execPromise env ExecSite.nginxTest "nginx -t"
      let _ ← execPromise env ExecSite.nginxReload "nginx -s reload"
      pure serverName)
    (fun e => M.throw e)

/-- The query SELECT * FROM projects WHERE id = $1 AND user_id = $2
(first row). -/
def DB.findProject (db : DB) (projectId userId : Nat) : Option Project :=
  db.projects.find? fun p => p.id == projectId && p.user_id == userId

/-- The query SELECT * FROM files WHERE project_id = $1. -/
def DB.projectFiles (db : DB) (projectId : Nat) : List FileRow :=
  db.files.filter fun f => f.project_id == projectId

/-- The INSERT INTO deployments query creating the record in status
building and returning its fresh id. -/
def insertDeployment (projectId : Nat) (commitMessage : String) : M Nat := fun s =>
  let did := s.db.nextDeploymentId
  let dep : Deployment := ⟨did, projectId, "building", none, none, none, commitMessage, none⟩
  (Except.ok did,
    { s with db := { s.db with
                       deployments := s.db.deployments ++ [dep]
                       nextDeploymentId := did + 1 } })

/-- The success-path UPDATE setting the new deployment to status
running with container id, name, URL and duration. -/
def markRunning (deploymentId : Nat) (containerId containerName url : String)
    (buildDuration : Nat) : M Unit :=
  M.modifyS fun s =>
    { s with db := { s.db with deployments := s.db.deployments.map fun d =>
        if d.id == deploymentId then
          { d with status := "running", container_id := some containerId,
                   container_name := some containerName, url := some url,
                   build_duration := some buildDuration }
        else d } }

/-- The UPDATE transitioning every other deployment of the project
that is in status running to status stopped. -/
def stopOtherRunning (projectId deploymentId : Nat) : M Unit :=
  M.modifyS fun s =>
    { s with db := { s.db with deployments := s.db.deployments.map fun d =>
        if d.project_id == projectId && d.id != deploymentId && d.status == "running" then
          { d with status := "stopped" }
        else d } }

/-- The object literal returned by `deploy`. -/
structure DeployResult where
  success : Bool
  deploymentId : Option Nat
  url : Option String
  buildDuration : Option Nat
  errorMsg : Option String
deriving DecidableEq, Repr

/-- Steps 6–8 of the deploy function's try block: containerize, configure the
proxy, and record success (status `running`, superseded deployments
`stopped`, final logs), factored out with the values fixed by the
earlier steps as parameters. -/
def finalizeDeploy (env : Env) (projectId deploymentId : Nat) (project : Project)
    (projectDir : String) (startTime : Nat) : M DeployResult := do
  let ci ← createContainer env projectId deploymentId project projectDir
  addBuildLog deploymentId "info" "⚙️ Configurando proxy reverso..."
  let serverName ← configureNginx env projectId ci.hostPort none
  let endTime ← dateNow env
  let buildDuration := (endTime - startTime) / 1000
  let url := "http://" ++ serverName
  markRunning deploymentId ci.containerId ci.containerName url buildDuration
  stopOtherRunning projectId deploymentId
  addBuildLog deploymentId "info"
    ("✅ Deploy concluído com sucesso em " ++ toString buildDuration ++ "s!")
  addBuildLog deploymentId "info" ("🌐 URL: " ++ url)
  pure (DeployResult.mk true (some deploymentId) (some url) (some buildDuration) none)

/-- Steps 3–8 of the deploy function's try block, from the empty-file-set check
through the framework-dispatched build to `finalizeDeploy`, factored
out with the project row, the created deployment id, the file set and
the start time as parameters (they are fixed by the earlier steps). -/
def deployPipeline (env : Env) (projectId : Nat) (project : Project) (deploymentId : Nat)
    (files : List FileRow) (startTime : Nat) : M DeployResult := do
  if files.length == 0 then
    M.throw (JsError.jsError "Projeto não tem arquivos")
  else pure ()
  addBuildLog deploymentId "info" "📁 Salvando arquivos..."
  let projectDir ← saveProjectFiles projectId files
  if project.framework == "react" || project.framework == "html" then
    let _ ← buildReactProject env projectDir deploymentId project
    pure ()
  else if project.framework == "nextjs" then
    let _ ← buildNextProject env projectDir deploymentId project
    pure ()
  else pure ()
  finalizeDeploy env projectId deploymentId project projectDir startTime

/-- Models deploy — the full pipeline:
look up the project, create the Deployment record in `building`, read
the file set, then run `deployPipeline`.

The catch handler mirrors a scoping slip in the source: the handler
runs `UPDATE ... WHERE id = $2` with `deployment?.id`, but `deployment`
is a `const` destructured *inside* the `try` block, so under JavaScript
block scoping the identifier is not visible in the `catch` block and
evaluating it raises `ReferenceError: deployment is not defined` before
the update or the `{ success: false, error: ... }` return can run.  The
handler is therefore modelled as throwing that `ReferenceError`. -/
def deploy (env : Env) (projectId userId : Nat) (commitMessage : String) : M DeployResult := do
  let startTime ← dateNow env
  M.tryCatch
    (do
      let s ← M.getS
      match s.db.findProject projectId userId with
      | none => M.throw (JsError.jsError "Projeto não encontrado")
      | some project => do
        let deploymentId ← insertDeployment projectId commitMessage
        addBuildLog deploymentId "info" "🚀 Iniciando deploy..."
        let s1 ← M.getS
        deployPipeline env projectId project deploymentId
          (s1.db.projectFiles projectId) startTime)
    (fun _error => M.throw (JsError.referenceError "deployment"))

/-- Models stopDeployment: stop and remove the container if
one is recorded and mark the deployment stopped; return `true` in every
non-throwing path (including "no such deployment" and "no container
name"), and `false` when any step throws. -/
def stopDeployment (env : Env) (deploymentId : Nat) : M Bool :=
  M.tryCatch
    (do
      let s ← M.getS
      match s.db.deployments.find? (fun d => d.id == deploymentId) with
      | some dep =>
        match dep.container_name with
        | some cn => do
          let _ ← execPromise env ExecSite.sdStop ("docker stop " ++ cn)
          let _ ← execPromise env ExecSite.sdRm ("docker rm " ++ cn)
          M.modifyS fun s2 =>
            { s2 with db := { s2.db with deployments := s2.db.deployments.map fun d =>
                if d.id == deploymentId then { d with status := "stopped" } else d } }
          pure true
        | none => pure true
      | none => pure true)
    (fun _ => pure false)

/-- Initial run state over a database snapshot: empty trace, clock at
tick zero. -/
def initSt (db : DB) : St := ⟨db, [], 0⟩

/-- Run `deploy` against a database snapshot. -/
def runDeploy (env : Env) (db : DB) (projectId userId : Nat) (msg : String) :
    Except JsError DeployResult × St :=
  deploy env projectId userId msg (initSt db)

/-- Run `stopDeployment` against a database snapshot. -/
def runStopDeployment (env : Env) (db : DB) (deploymentId : Nat) :
    Except JsError Bool × St :=
  stopDeployment env deploymentId (initSt db)

/-- The call site of an exec event, if the event is one. -/
def Event.execSite? : Event → Option ExecSite
  | .execCmd site _ => some site
  | _ => none

/-- Is this event the container-start invocation (`docker run`)? -/
def isContainerStart (e : Event) : Bool := e.execSite? == some ExecSite.dockerRun

/-- Is this event the proxy reload invocation (`nginx -s reload`)? -/
def isProxyReload (e : Event) : Bool := e.execSite? == some ExecSite.nginxReload

/-- Is this event a host-side dependency-install or build invocation
(the Build Orchestrator, i.e. `buildReactProject`/`buildNextProject`)? -/
def isHostInstallOrBuild (e : Event) : Bool :=
  e.execSite? == some ExecSite.installReact || e.execSite? == some ExecSite.buildReact
    || e.execSite? == some ExecSite.installNext || e.execSite? == some ExecSite.buildNext

/-- Is this event a host-side dependency-install invocation
(`npm install` run by the Build Orchestrator)? -/
def isHostInstall (e : Event) : Bool :=
  e.execSite? == some ExecSite.installReact || e.execSite? == some ExecSite.installNext

/-- The exact event list produced by the `saveProjectFiles` loop. -/
def writeEvents (projectDir : String) : List FileRow → List Event
  | [] => []
  | file :: rest =>
    Event.fsMkdir (pathDirname (pathJoin projectDir file.path))
      :: Event.fsWrite (pathJoin projectDir file.path) (file.content.getD "")
      :: writeEvents projectDir rest

/-- A computation never changes the `deployments` table. -/
def deploymentsStable (m : M α) : Prop :=
  ∀ s, ((m s).2).db.deployments = s.db.deployments

/-- Every event a computation appends to the trace satisfies `P`. -/
def eventsBounded (P : Event → Bool) (m : M α) : Prop :=
  ∀ s e, e ∈ ((m s).2).trace → e ∈ s.trace ∨ P e = true

/-- Events that are not Build Orchestrator invocations. -/
def notHostInstallOrBuild (e : Event) : Bool := !(isHostInstallOrBuild e)

/-- Environment in which every external command succeeds with output
`"ok"` and the clock always reads 0. -/
def envAllOk : Env := ⟨fun _ => Except.ok "ok", fun _ => 0⟩

/-- Environment in which `npm install` exits non-zero and everything
else succeeds. -/
def envInstallFail : Env :=
  ⟨fun cmd => if cmd == "npm install" then Except.error "Command failed: npm install"
              else Except.ok "ok",
   fun _ => 0⟩

/-- Environment in which the proxy syntax check `nginx -t` fails and
everything else succeeds. -/
def envNginxTestFail : Env :=
  ⟨fun cmd => if cmd == "nginx -t" then Except.error "nginx: configuration file test failed"
              else Except.ok "ok",
   fun _ => 0⟩

/-- Environment in which `docker stop c0` fails and everything else
succeeds. -/
def envStopFail : Env :=
  ⟨fun cmd => if cmd == "docker stop c0" then Except.error "Error response from daemon"
              else Except.ok "ok",
   fun _ => 0⟩

/-- Project 7, a React SPA with all columns at their defaults. -/
def projReact7 : Project := ⟨7, 1, "react", none, none, none, none⟩

/-- Project 1, a `node` service. -/
def projNode1 : Project := ⟨1, 1, "node", none, none, none, none⟩

/-- Database for the spec's scenario: project 7 with two files, no
deployments yet. -/
def dbSpa7 : DB :=
  ⟨[projReact7],
   [⟨7, "index.html", some "<html></html>"⟩, ⟨7, "app.js", some "console.log(1)"⟩],
   [], [], 1⟩

/-- Like `dbSpa7` but with a previous deployment of project 7 still in
status `running`. -/
def dbSpa7Running : DB :=
  ⟨[projReact7],
   [⟨7, "index.html", some "<html></html>"⟩, ⟨7, "app.js", some "console.log(1)"⟩],
   [⟨0, 7, "running", some "cid0", some "c0", some "http://project-7.local", "m0", some 3⟩],
   [], 1⟩

/-- Database holding a `node` project with one file. -/
def dbNode1 : DB := ⟨[projNode1], [⟨1, "index.js", some "require(0)"⟩], [], [], 0⟩

/-- Database holding project 7 with an empty file set. -/
def dbNoFiles : DB := ⟨[projReact7], [], [], [], 0⟩

/-- Database for stop-deployment scenarios: deployment 0 is running
with container `c0`; there is no deployment 5. -/
def dbStop : DB :=
  ⟨[], [], [⟨0, 7, "running", some "cid", some "c0", none, "m", none⟩], [], 1⟩

/-- Database whose deployment 3 never reached `running` (no container
name recorded). -/
def dbStopNoName : DB :=
  ⟨[], [], [⟨3, 7, "failed", none, none, none, "m", none⟩], [], 4⟩

@[simp] theorem M.pure_def : (Pure.pure : α → M α) = M.pure := rfl

@[simp] theorem M.bind_def (x : M α) (f : α → M β) : x >>= f = M.bind x f := rfl

@[simp] theorem M.bind_apply (x : M α) (f : α → M β) (s : St) :
    M.bind x f s =
      match x s with
      | (Except.ok a, s1) => f a s1
      | (Except.error e, s1) => (Except.error e, s1) := rfl

@[simp] theorem M.pure_apply (a : α) (s : St) : M.pure a s = (Except.ok a, s) := rfl

@[simp] theorem M.throw_apply (e : JsError) (s : St) :
    (M.throw e : M α) s = (Except.error e, s) := rfl

@[simp] theorem M.tryCatch_apply (x : M α) (h : JsError → M α) (s : St) :
    M.tryCatch x h s =
      match x s with
      | (Except.ok a, s1) => (Except.ok a, s1)
      | (Except.error e, s1) => h e s1 := rfl

@[simp] theorem M.getS_apply (s : St) : M.getS s = (Except.ok s, s) := rfl

@[simp] theorem M.modifyS_apply (f : St → St) (s : St) :
    M.modifyS f s = (Except.ok (), f s) := rfl

@[simp] theorem dateNow_apply (env : Env) (s : St) :
    dateNow env s = (Except.ok (env.time s.ticks), { s with ticks := s.ticks + 1 }) := rfl

@[simp] theorem emitEvent_apply (e : Event) (s : St) :
    emitEvent e s = (Except.ok (), { s with trace := s.trace ++ [e] }) := rfl

@[simp] theorem execPromise_apply (env : Env) (site : ExecSite) (cmd : String) (s : St) :
    execPromise env site cmd s =
      (match env.exec cmd with
       | Except.ok out => Except.ok out
       | Except.error msg => Except.error (JsError.jsError msg),
       { s with trace := s.trace ++ [Event.execCmd site cmd] }) := by
  unfold execPromise
  cases env.exec cmd <;> rfl

@[simp] theorem addBuildLog_apply (deploymentId : Nat) (logType message : String) (s : St) :
    addBuildLog deploymentId logType message s =
      (Except.ok (),
       { s with
         db := { s.db with
                   build_logs := s.db.build_logs ++ [⟨deploymentId, logType, message⟩] }
         trace := s.trace ++ [Event.wsEmit ("deployment-" ++ toString deploymentId) message] }) := rfl

@[simp] theorem insertDeployment_apply (projectId : Nat) (commitMessage : String) (s : St) :
    insertDeployment projectId commitMessage s =
      (Except.ok s.db.nextDeploymentId,
       { s with db := { s.db with
           deployments := s.db.deployments ++
             [⟨s.db.nextDeploymentId, projectId, "building", none, none, none, commitMessage, none⟩]
           nextDeploymentId := s.db.nextDeploymentId + 1 } }) := rfl

theorem writeProjectFiles_apply (projectDir : String) (files : List FileRow) (s : St) :
    writeProjectFiles projectDir files s =
      (Except.ok (), { s with trace := s.trace ++ writeEvents projectDir files }) := by
  induction files generalizing s with
  | nil => simp [writeProjectFiles, writeEvents]
  | cons file rest ih =>
      simp [writeProjectFiles, writeEvents, ih, List.append_assoc]

theorem saveProjectFiles_apply (projectId : Nat) (files : List FileRow) (s : St) :
    saveProjectFiles projectId files s =
      (Except.ok (pathJoin deploysDir ("project-" ++ toString projectId)),
       { s with trace := s.trace ++
           (Event.fsMkdir (pathJoin deploysDir ("project-" ++ toString projectId))
             :: writeEvents (pathJoin deploysDir ("project-" ++ toString projectId)) files) }) := by
  simp [saveProjectFiles, createDeployDirectory, writeProjectFiles_apply, List.append_assoc]

theorem M.bind_eq_ok {x : M α} {f : α → M β} {s s2 : St} {b : β}
    (h : M.bind x f s = (Except.ok b, s2)) :
    ∃ a s1, x s = (Except.ok a, s1) ∧ f a s1 = (Except.ok b, s2) := by
  unfold M.bind at h
  rcases hx : x s with ⟨r, s1⟩
  rw [hx] at h
  cases r with
  | ok a => exact ⟨a, s1, rfl, h⟩
  | error e => simp at h

theorem M.tryCatch_ok_of_throwing_handler {x : M α} {h : JsError → M α} {s s2 : St} {b : α}
    (hh : ∀ e s', ∃ e' s'', h e s' = (Except.error e', s''))
    (hok : M.tryCatch x h s = (Except.ok b, s2)) : x s = (Except.ok b, s2) := by
  unfold M.tryCatch at hok
  rcases hx : x s with ⟨r, s1⟩
  rw [hx] at hok
  cases r with
  | ok a => simpa using hok
  | error e =>
      rcases hh e s1 with ⟨e', s'', he⟩
      have hok2 : h e s1 = (Except.ok b, s2) := hok
      rw [he] at hok2
      simp at hok2

theorem deploymentsStable_bind {x : M α} {f : α → M β}
    (hx : deploymentsStable x) (hf : ∀ a, deploymentsStable (f a)) :
    deploymentsStable (M.bind x f) := by
  intro s
  have h1 := hx s
  unfold M.bind
  rcases hxs : x s with ⟨r, s1⟩
  rw [hxs] at h1
  cases r with
  | ok a =>
      show ((f a s1).2).db.deployments = s.db.deployments
      rw [hf a s1]
      exact h1
  | error e => exact h1

theorem deploymentsStable_tryCatch {x : M α} {h : JsError → M α}
    (hx : deploymentsStable x) (hh : ∀ e, deploymentsStable (h e)) :
    deploymentsStable (M.tryCatch x h) := by
  intro s
  have h1 := hx s
  unfold M.tryCatch
  rcases hxs : x s with ⟨r, s1⟩
  rw [hxs] at h1
  cases r with
  | ok a => exact h1
  | error e =>
      show ((h e s1).2).db.deployments = s.db.deployments
      rw [hh e s1]
      exact h1

theorem deploymentsStable_pure (a : α) : deploymentsStable (M.pure a) := by
  intro s; rfl

theorem deploymentsStable_throw (e : JsError) : deploymentsStable (M.throw e : M α) := by
  intro s; rfl

theorem deploymentsStable_getS : deploymentsStable M.getS := by
  intro s; rfl

theorem deploymentsStable_dateNow (env : Env) : deploymentsStable (dateNow env) := by
  intro s; rfl

theorem deploymentsStable_emitEvent (e : Event) : deploymentsStable (emitEvent e) := by
  intro s; rfl

theorem deploymentsStable_execPromise (env : Env) (site : ExecSite) (cmd : String) :
    deploymentsStable (execPromise env site cmd) := by
  intro s
  unfold execPromise
  cases env.exec cmd <;> rfl

theorem deploymentsStable_addBuildLog (did : Nat) (t msg : String) :
    deploymentsStable (addBuildLog did t msg) := by
  intro s; rfl

theorem deploymentsStable_buildReactProject (env : Env) (dir : String) (did : Nat)
    (p : Project) : deploymentsStable (buildReactProject env dir did p) := by
  unfold buildReactProject
  simp only [M.bind_def]
  apply deploymentsStable_tryCatch
  · apply deploymentsStable_bind (deploymentsStable_addBuildLog _ _ _)
    intro _
    apply deploymentsStable_bind (deploymentsStable_execPromise _ _ _)
    intro _
    apply deploymentsStable_bind (deploymentsStable_addBuildLog _ _ _)
    intro _
    apply deploymentsStable_bind (deploymentsStable_addBuildLog _ _ _)
    intro _
    apply deploymentsStable_bind (deploymentsStable_execPromise _ _ _)
    intro _
    apply deploymentsStable_bind (deploymentsStable_addBuildLog _ _ _)
    intro _
    exact deploymentsStable_pure true
  · intro e
    apply deploymentsStable_bind (deploymentsStable_addBuildLog _ _ _)
    intro _
    exact deploymentsStable_throw e

theorem deploymentsStable_buildNextProject (env : Env) (dir : String) (did : Nat)
    (p : Project) : deploymentsStable (buildNextProject env dir did p) := by
  unfold buildNextProject
  simp only [M.bind_def]
  apply deploymentsStable_tryCatch
  · apply deploymentsStable_bind (deploymentsStable_addBuildLog _ _ _)
    intro _
    apply deploymentsStable_bind (deploymentsStable_execPromise _ _ _)
    intro _
    apply deploymentsStable_bind (deploymentsStable_addBuildLog _ _ _)
    intro _
    apply deploymentsStable_bind (deploymentsStable_addBuildLog _ _ _)
    intro _
    apply deploymentsStable_bind (deploymentsStable_execPromise _ _ _)
    intro _
    apply deploymentsStable_bind (deploymentsStable_addBuildLog _ _ _)
    intro _
    exact deploymentsStable_pure true
  · intro e
    apply deploymentsStable_bind (deploymentsStable_addBuildLog _ _ _)
    intro _
    exact deploymentsStable_throw e

theorem deploymentsStable_createDockerfile (dir : String) (p : Project) :
    deploymentsStable (createDockerfile dir p) := by
  unfold createDockerfile
  simp only [M.bind_def]
  split
  · apply deploymentsStable_bind (deploymentsStable_emitEvent _)
    intro _
    exact deploymentsStable_emitEvent _
  · split
    · exact deploymentsStable_emitEvent _
    · split
      · exact deploymentsStable_emitEvent _
      · exact deploymentsStable_emitEvent _

theorem deploymentsStable_stopOldContainers (env : Env) (l : List Deployment) :
    deploymentsStable (stopOldContainers env l) := by
  induction l with
  | nil => exact deploymentsStable_pure ()
  | cons dep rest ih =>
      unfold stopOldContainers
      cases dep.container_name with
      | some cn =>
          simp only [M.bind_def]
          apply deploymentsStable_bind (deploymentsStable_execPromise _ _ _)
          intro _
          apply deploymentsStable_bind (deploymentsStable_execPromise _ _ _)
          intro _
          exact ih
      | none => exact ih

theorem deploymentsStable_createContainer (env : Env) (pid did : Nat) (p : Project)
    (dir : String) : deploymentsStable (createContainer env pid did p dir) := by
  unfold createContainer
  simp only [M.bind_def]
  apply deploymentsStable_bind (deploymentsStable_dateNow env)
  intro _
  apply deploymentsStable_tryCatch
  · apply deploymentsStable_bind (deploymentsStable_addBuildLog _ _ _)
    intro _
    apply deploymentsStable_bind (deploymentsStable_createDockerfile _ _)
    intro _
    apply deploymentsStable_bind (deploymentsStable_addBuildLog _ _ _)
    intro _
    apply deploymentsStable_bind (deploymentsStable_execPromise _ _ _)
    intro _
    apply deploymentsStable_bind
    · apply deploymentsStable_tryCatch
      · apply deploymentsStable_bind deploymentsStable_getS
        intro s
        exact deploymentsStable_stopOldContainers env _
      · intro _; exact deploymentsStable_pure ()
    · intro _
      apply deploymentsStable_bind (deploymentsStable_addBuildLog _ _ _)
      intro _
      apply deploymentsStable_bind (deploymentsStable_execPromise _ _ _)
      intro _
      apply deploymentsStable_bind (deploymentsStable_addBuildLog _ _ _)
      intro _
      exact deploymentsStable_pure _
  · intro e
    apply deploymentsStable_bind (deploymentsStable_addBuildLog _ _ _)
    intro _
    exact deploymentsStable_throw e

theorem deploymentsStable_configureNginx (env : Env) (pid port : Nat)
    (domain : Option String) : deploymentsStable (configureNginx env pid port domain) := by
  unfold configureNginx
  simp only [M.bind_def]
  apply deploymentsStable_tryCatch
  · apply deploymentsStable_bind (deploymentsStable_emitEvent _)
    intro _
    apply deploymentsStable_bind
    · exact deploymentsStable_tryCatch (deploymentsStable_emitEvent _)
        (fun _ => deploymentsStable_pure ())
    · intro _
      apply deploymentsStable_bind (deploymentsStable_emitEvent _)
      intro _
      apply deploymentsStable_bind (deploymentsStable_execPromise _ _ _)
      intro _
      apply deploymentsStable_bind (deploymentsStable_execPromise _ _ _)
      intro _
      exact deploymentsStable_pure _
  · intro e
    exact deploymentsStable_throw e

theorem deploymentsStable_saveProjectFiles (pid : Nat) (files : List FileRow) :
    deploymentsStable (saveProjectFiles pid files) := by
  intro s
  rw [saveProjectFiles_apply]

/-- C3: port allocation is a pure function of the project id, host port
= fixed base port (10000) + project id; allocating twice for the same
id yields the same port, and distinct project ids get distinct
ports. -/
theorem hostPort_allocation_pure_and_injective :
    (∀ pid : Nat, hostPortFor pid = 10000 + pid) ∧
    (∀ pid : Nat, hostPortFor pid = hostPortFor pid) ∧
    (∀ pid1 pid2 : Nat, pid1 ≠ pid2 → hostPortFor pid1 ≠ hostPortFor pid2) := by
  refine ⟨fun _ => rfl, fun _ => rfl, ?_⟩
  intro a b hne h
  exact hne (Nat.add_left_cancel h)

/-- Witness for C3 at project ids 3 and 4. -/
theorem hostPort_allocation_pure_and_injective_witness :
    (3 : Nat) ≠ 4 ∧ hostPortFor 3 ≠ hostPortFor 4 :=
  ⟨by decide, hostPort_allocation_pure_and_injective.2.2 3 4 (by decide)⟩

/-- C10: for a framework outside the recognized set (`react`, `html`,
`nextjs`, `node`), `createDockerfile` does not fail: it writes an empty
Dockerfile to the project directory (so the unrecognized framework is
only detected later, at image build time). -/
theorem createDockerfile_unknownFramework_writes_empty (dir : String) (p : Project) (s : St)
    (h1 : p.framework ≠ "react") (h2 : p.framework ≠ "html")
    (h3 : p.framework ≠ "nextjs") (h4 : p.framework ≠ "node") :
    createDockerfile dir p s =
      (Except.ok (),
       { s with trace := s.trace ++ [Event.fsWrite (pathJoin dir "Dockerfile") ""] }) := by
  simp [createDockerfile, h1, h2, h3, h4]

/-- Witness for C10 on the unrecognized framework `vue`. -/
theorem createDockerfile_unknownFramework_writes_empty_witness :
    ("vue" : String) ≠ "react" ∧ ("vue" : String) ≠ "html" ∧
    ("vue" : String) ≠ "nextjs" ∧ ("vue" : String) ≠ "node" ∧
    createDockerfile "/var/criacode/deploys/project-1" ⟨1, 1, "vue", none, none, none, none⟩
        (initSt dbNoFiles) =
      (Except.ok (),
       { initSt dbNoFiles with
           trace := [Event.fsWrite (pathJoin "/var/criacode/deploys/project-1" "Dockerfile") ""] }) :=
  ⟨by decide, by decide, by decide, by decide,
   createDockerfile_unknownFramework_writes_empty _ _ _
     (by decide) (by decide) (by decide) (by decide)⟩

/-- C6: `configureNginx` always runs the proxy syntax check (`nginx
-t`) before the reload, and when the syntax check fails the reload
command is never invoked and the operation fails. -/
theorem nginx_syntaxCheck_guards_reload (env : Env) (pid port : Nat)
    (domain : Option String) (s : St) :
    (∀ m, env.exec "nginx -t" = Except.error m →
       configureNginx env pid port domain s =
         (Except.error (JsError.jsError m),
          { s with trace := s.trace ++
              [Event.fsWrite (pathJoin nginxConfigDir ("criacode-project-" ++ toString pid))
                 (proxyConfFor (serverNameFor pid domain) port),
               Event.fsUnlink (pathJoin nginxEnabledDir ("criacode-project-" ++ toString pid)),
               Event.fsSymlink (pathJoin nginxConfigDir ("criacode-project-" ++ toString pid))
                 (pathJoin nginxEnabledDir ("criacode-project-" ++ toString pid)),
               Event.execCmd ExecSite.nginxTest "nginx -t"] })) ∧
    (∀ out, env.exec "nginx -t" = Except.ok out →
       ∃ r, configureNginx env pid port domain s =
         (r,
          { s with trace := s.trace ++
              [Event.fsWrite (pathJoin nginxConfigDir ("criacode-project-" ++ toString pid))
                 (proxyConfFor (serverNameFor pid domain) port),
               Event.fsUnlink (pathJoin nginxEnabledDir ("criacode-project-" ++ toString pid)),
               Event.fsSymlink (pathJoin nginxConfigDir ("criacode-project-" ++ toString pid))
                 (pathJoin nginxEnabledDir ("criacode-project-" ++ toString pid)),
               Event.execCmd ExecSite.nginxTest "nginx -t",
               Event.execCmd ExecSite.nginxReload "nginx -s reload"] })) := by
  constructor
  · intro m hm
    simp [configureNginx, hm, List.append_assoc]
  · intro out hout
    cases hre : env.exec "nginx -s reload" with
    | ok o => exact ⟨Except.ok (serverNameFor pid domain),
        by simp [configureNginx, hout, hre, List.append_assoc]⟩
    | error m => exact ⟨Except.error (JsError.jsError m),
        by simp [configureNginx, hout, hre, List.append_assoc]⟩

/-- Witness for C6: with a failing `nginx -t`, the reload is never
invoked and the previous configuration survives (the run errors out
right after the syntax check). -/
theorem nginx_syntaxCheck_guards_reload_witness :
    envNginxTestFail.exec "nginx -t" = Except.error "nginx: configuration file test failed" ∧
    configureNginx envNginxTestFail 7 10007 none (initSt dbNoFiles) =
      (Except.error (JsError.jsError "nginx: configuration file test failed"),
       { initSt dbNoFiles with trace :=
           [Event.fsWrite (pathJoin nginxConfigDir "criacode-project-7")
              (proxyConfFor (serverNameFor 7 none) 10007),
            Event.fsUnlink (pathJoin nginxEnabledDir "criacode-project-7"),
            Event.fsSymlink (pathJoin nginxConfigDir "criacode-project-7")
              (pathJoin nginxEnabledDir "criacode-project-7"),
            Event.execCmd ExecSite.nginxTest "nginx -t"] }) :=
  ⟨by decide,
   (nginx_syntaxCheck_guards_reload envNginxTestFail 7 10007 none (initSt dbNoFiles)).1
     "nginx: configuration file test failed" (by decide)⟩

/-- C9: `stopDeployment` returns `true` without touching the container
runtime when the deployment is missing or has no recorded container
name, never raises, and reports a stop/remove command failure as the
boolean `false`. -/
theorem stopDeployment_noop_and_boolean_failure (env : Env) (db : DB) (did : Nat) :
    (db.deployments.find? (fun d => d.id == did) = none →
       runStopDeployment env db did = (Except.ok true, initSt db)) ∧
    (∀ dep, db.deployments.find? (fun d => d.id == did) = some dep →
       dep.container_name = none →
       runStopDeployment env db did = (Except.ok true, initSt db)) ∧
    (∃ b, (runStopDeployment env db did).1 = Except.ok b) ∧
    (∀ dep cn m, db.deployments.find? (fun d => d.id == did) = some dep →
       dep.container_name = some cn →
       env.exec ("docker stop " ++ cn) = Except.error m →
       (runStopDeployment env db did).1 = Except.ok false) ∧
    (∀ dep cn out m, db.deployments.find? (fun d => d.id == did) = some dep →
       dep.container_name = some cn →
       env.exec ("docker stop " ++ cn) = Except.ok out →
       env.exec ("docker rm " ++ cn) = Except.error m →
       (runStopDeployment env db did).1 = Except.ok false) := by
  refine ⟨?_, ?_, ?_, ?_, ?_⟩
  · intro hfind
    simp [runStopDeployment, stopDeployment, initSt, hfind]
  · intro dep hfind hcn
    simp [runStopDeployment, stopDeployment, initSt, hfind, hcn]
  · cases hfind : db.deployments.find? (fun d => d.id == did) with
    | none => exact ⟨true, by simp [runStopDeployment, stopDeployment, initSt, hfind]⟩
    | some dep =>
        cases hcn : dep.container_name with
        | none => exact ⟨true, by simp [runStopDeployment, stopDeployment, initSt, hfind, hcn]⟩
        | some cn =>
            cases hst : env.exec ("docker stop " ++ cn) with
            | error m =>
                exact ⟨false, by simp [runStopDeployment, stopDeployment, initSt, hfind, hcn, hst]⟩
            | ok o =>
                cases hrm : env.exec ("docker rm " ++ cn) with
                | error m =>
                    exact ⟨false,
                      by simp [runStopDeployment, stopDeployment, initSt, hfind, hcn, hst, hrm]⟩
                | ok o2 =>
                    exact ⟨true,
                      by simp [runStopDeployment, stopDeployment, initSt, hfind, hcn, hst, hrm]⟩
  · intro dep cn m hfind hcn hst
    simp [runStopDeployment, stopDeployment, initSt, hfind, hcn, hst]
  · intro dep cn out m hfind hcn hst hrm
    simp [runStopDeployment, stopDeployment, initSt, hfind, hcn, hst, hrm]

/-- Witness for C9: deployment 3 has no container name, so stopping it
succeeds without any runtime call; stopping deployment 0 with a failing
`docker stop` returns `false`. -/
theorem stopDeployment_noop_and_boolean_failure_witness :
    (runStopDeployment envAllOk dbStopNoName 3 = (Except.ok true, initSt dbStopNoName)) ∧
    ((runStopDeployment envStopFail dbStop 0).1 = Except.ok false) :=
  ⟨(stopDeployment_noop_and_boolean_failure envAllOk dbStopNoName 3).2.1
      ⟨3, 7, "failed", none, none, none, "m", none⟩ (by decide) (by decide),
   (stopDeployment_noop_and_boolean_failure envStopFail dbStop 0).2.2.2.1
      ⟨0, 7, "running", some "cid", some "c0", none, "m", none⟩ "c0"
      "Error response from daemon" (by decide) (by decide) (by decide)⟩

/-- C2 (code bug): when a pipeline stage fails after the Deployment
record was created (here: `npm install` exits non-zero), `deploy` does
NOT set the record to `failed` and does NOT return a `success:false`
result; its catch handler reads the out-of-scope `deployment` binding
and the run ends with `ReferenceError: deployment is not defined`
propagating to the caller, leaving the record in status `building`. -/
theorem deploy_buildFailure_raises_referenceError :
    (runDeploy envInstallFail dbSpa7 7 1 "m").1 =
      Except.error (JsError.referenceError "deployment") ∧
    ((runDeploy envInstallFail dbSpa7 7 1 "m").2).db.deployments.map Deployment.status =
      ["building"] ∧
    BuildLog.mk 1 "error" "❌ Erro no build: Command failed: npm install" ∈
      ((runDeploy envInstallFail dbSpa7 7 1 "m").2).db.build_logs := by
  refine ⟨by decide, by decide, by decide⟩

/-- C4 (code bug): a deploy of a project with an empty file set never
reaches `running`, but it does not transition to `failed` either and no
`EmptyProject` error log is recorded: the throw of `Projeto não tem
arquivos` reaches the catch handler, which itself raises
`ReferenceError: deployment is not defined`, so the record stays in
status `building` and the only persisted log is the initial info
line. -/
theorem deploy_emptyProject_stays_building_raises :
    (runDeploy envAllOk dbNoFiles 7 1 "m").1 =
      Except.error (JsError.referenceError "deployment") ∧
    ((runDeploy envAllOk dbNoFiles 7 1 "m").2).db.deployments.map Deployment.status =
      ["building"] ∧
    ((runDeploy envAllOk dbNoFiles 7 1 "m").2).db.build_logs.filter
        (fun l => l.log_type == "error") = [] ∧
    ((runDeploy envAllOk dbNoFiles 7 1 "m").2).db.build_logs.map BuildLog.message =
      ["🚀 Iniciando deploy..."] := by
  refine ⟨by decide, by decide, by decide, by decide⟩

/-- C8: hostname selection uses the explicit custom domain when one is
supplied and otherwise synthesizes `project-<id>.local`; deploying
project id 7 (React SPA, two files, no custom domain, all external
commands succeeding) yields a `running` Deployment whose URL hostname
is `project-7.local` and a container bound to host port 10000 + 7. -/
theorem hostname_policy_and_spa_scenario :
    (∀ pid : Nat, ∀ d : String, serverNameFor pid (some d) = d) ∧
    (∀ pid : Nat, serverNameFor pid none = "project-" ++ toString pid ++ ".local") ∧
    hostPortFor 7 = 10007 ∧
    (runDeploy envAllOk dbSpa7 7 1 "Deploy manual").1 =
      Except.ok (DeployResult.mk true (some 1) (some "http://project-7.local") (some 0) none) ∧
    ((runDeploy envAllOk dbSpa7 7 1 "Deploy manual").2).db.deployments.map
        (fun d => (d.id, d.status, d.url)) =
      [(1, "running", some "http://project-7.local")] ∧
    Event.execCmd ExecSite.dockerRun
        "docker run -d --name criacode-project-7-0 -p 10007:3000 --restart unless-stopped criacode-7:latest"
      ∈ ((runDeploy envAllOk dbSpa7 7 1 "Deploy manual").2).trace := by
  refine ⟨fun _ _ => rfl, fun _ => rfl, rfl, by decide, by decide, by decide⟩

/-- C7 counterexample: a `node`-framework project deploys successfully
while the trace contains NO host-side dependency-install (and no build)
invocation at all — in particular none before the containerization
step, which does occur (`docker build` is in the trace).  This refutes
the claim that the Build Orchestrator still executes an install step
for `node` projects. -/
theorem node_deploy_without_host_install :
    (runDeploy envAllOk dbNode1 1 1 "m").1 =
      Except.ok (DeployResult.mk true (some 0) (some "http://project-1.local") (some 0) none) ∧
    ((runDeploy envAllOk dbNode1 1 1 "m").2).trace.filter isHostInstall = [] ∧
    ((runDeploy envAllOk dbNode1 1 1 "m").2).trace.filter isHostInstallOrBuild = [] ∧
    Event.execCmd ExecSite.dockerBuild "docker build -t criacode-1:latest ."
      ∈ ((runDeploy envAllOk dbNode1 1 1 "m").2).trace := by
  refine ⟨by decide, by decide, by decide, by decide⟩

/-- The file-materialization loop records only filesystem events, never
external-command invocations. -/
theorem writeEvents_execSite (dir : String) (files : List FileRow) :
    ∀ e ∈ writeEvents dir files, e.execSite? = none := by
  induction files with
  | nil => intro e he; simp [writeEvents] at he
  | cons f rest ih =>
      intro e he
      simp only [writeEvents, List.mem_cons] at he
      rcases he with h | h | h
      · subst h; rfl
      · subst h; rfl
      · exact ih e h

/-- C5: whenever the install or build command fails for a framework
that runs the Build Orchestrator, an `error` log carrying the failure
detail is persisted for the deployment and the run contains no
container-start (`docker run`) and no proxy-reload (`nginx -s reload`)
invocation at any point afterwards (indeed none at all). -/
theorem buildFailure_error_log_and_no_start_no_reload
    (env : Env) (db : DB) (pid uid : Nat) (msg : String) (p : Project)
    (hfind : db.findProject pid uid = some p)
    (hfw : p.framework = "react" ∨ p.framework = "html" ∨ p.framework = "nextjs")
    (hfiles : db.projectFiles pid ≠ [])
    (hfail : (∃ m, env.exec "npm install" = Except.error m) ∨
             (∃ out m, env.exec "npm install" = Except.ok out ∧
                env.exec (if p.framework == "nextjs" then "npm run build"
                          else p.build_command.getD "npm run build") = Except.error m)) :
    (∃ m, BuildLog.mk db.nextDeploymentId "error" ("❌ Erro no build: " ++ m) ∈
        ((runDeploy env db pid uid msg).2).db.build_logs) ∧
    (∀ e ∈ ((runDeploy env db pid uid msg).2).trace,
        isContainerStart e = false ∧ isProxyReload e = false) := by
  have hfiles2 : db.files.filter (fun f => f.project_id == pid) ≠ [] := hfiles
  have hcond : ¬ ∀ a ∈ db.files, ¬a.project_id = pid := by
    intro hall
    apply hfiles2
    rw [List.filter_eq_nil_iff]
    intro a ha
    simpa using hall a ha
  have hw := writeEvents_execSite (pathJoin deploysDir ("project-" ++ toString pid))
    (List.filter (fun f => f.project_id == pid) db.files)
  rcases hfw with hfw | hfw | hfw
  · rcases hfail with ⟨m, hm⟩ | ⟨out, m, hout, hm⟩
    · constructor
      · exact ⟨m, by simp [runDeploy, deploy, deployPipeline, initSt, DB.projectFiles, saveProjectFiles_apply,
          buildReactProject, hfind, hcond, hfw, hm, JsError.message]⟩
      · intro e he
        simp [runDeploy, deploy, deployPipeline, initSt, DB.projectFiles, saveProjectFiles_apply,
          buildReactProject, hfind, hcond, hfw, hm, JsError.message] at he
        rcases he with h | h | h | h | h | h | h
        · subst h; exact ⟨rfl, rfl⟩
        · subst h; exact ⟨rfl, rfl⟩
        · subst h; exact ⟨rfl, rfl⟩
        · simp [isContainerStart, isProxyReload, hw e h]
        · subst h; exact ⟨rfl, rfl⟩
        · subst h; exact ⟨rfl, rfl⟩
        · subst h; exact ⟨rfl, rfl⟩
    · simp [hfw] at hm
      constructor
      · exact ⟨m, by simp [runDeploy, deploy, deployPipeline, initSt, DB.projectFiles, saveProjectFiles_apply,
          buildReactProject, hfind, hcond, hfw, hout, hm, JsError.message]⟩
      · intro e he
        simp [runDeploy, deploy, deployPipeline, initSt, DB.projectFiles, saveProjectFiles_apply,
          buildReactProject, hfind, hcond, hfw, hout, hm, JsError.message] at he
        rcases he with h | h | h | h | h | h | h | h | h | h
        · subst h; exact ⟨rfl, rfl⟩
        · subst h; exact ⟨rfl, rfl⟩
        · subst h; exact ⟨rfl, rfl⟩
        · simp [isContainerStart, isProxyReload, hw e h]
        · subst h; exact ⟨rfl, rfl⟩
        · subst h; exact ⟨rfl, rfl⟩
        · subst h; exact ⟨rfl, rfl⟩
        · subst h; exact ⟨rfl, rfl⟩
        · subst h; exact ⟨rfl, rfl⟩
        · subst h; exact ⟨rfl, rfl⟩
  · rcases hfail with ⟨m, hm⟩ | ⟨out, m, hout, hm⟩
    · constructor
      · exact ⟨m, by simp [runDeploy, deploy, deployPipeline, initSt, DB.projectFiles, saveProjectFiles_apply,
          buildReactProject, hfind, hcond, hfw, hm, JsError.message]⟩
      · intro e he
        simp [runDeploy, deploy, deployPipeline, initSt, DB.projectFiles, saveProjectFiles_apply,
          buildReactProject, hfind, hcond, hfw, hm, JsError.message] at he
        rcases he with h | h | h | h | h | h | h
        · subst h; exact ⟨rfl, rfl⟩
        · subst h; exact ⟨rfl, rfl⟩
        · subst h; exact ⟨rfl, rfl⟩
        · simp [isContainerStart, isProxyReload, hw e h]
        · subst h; exact ⟨rfl, rfl⟩
        · subst h; exact ⟨rfl, rfl⟩
        · subst h; exact ⟨rfl, rfl⟩
    · simp [hfw] at hm
      constructor
      · exact ⟨m, by simp [runDeploy, deploy, deployPipeline, initSt, DB.projectFiles, saveProjectFiles_apply,
          buildReactProject, hfind, hcond, hfw, hout, hm, JsError.message]⟩
      · intro e he
        simp [runDeploy, deploy, deployPipeline, initSt, DB.projectFiles, saveProjectFiles_apply,
          buildReactProject, hfind, hcond, hfw, hout, hm, JsError.message] at he
        rcases he with h | h | h | h | h | h | h | h | h | h
        · subst h; exact ⟨rfl, rfl⟩
        · subst h; exact ⟨rfl, rfl⟩
        · subst h; exact ⟨rfl, rfl⟩
        · simp [isContainerStart, isProxyReload, hw e h]
        · subst h; exact ⟨rfl, rfl⟩
        · subst h; exact ⟨rfl, rfl⟩
        · subst h; exact ⟨rfl, rfl⟩
        · subst h; exact ⟨rfl, rfl⟩
        · subst h; exact ⟨rfl, rfl⟩
        · subst h; exact ⟨rfl, rfl⟩
  · rcases hfail with ⟨m, hm⟩ | ⟨out, m, hout, hm⟩
    · constructor
      · exact ⟨m, by simp [runDeploy, deploy, deployPipeline, initSt, DB.projectFiles, saveProjectFiles_apply,
          buildNextProject, hfind, hcond, hfw, hm, JsError.message]⟩
      · intro e he
        simp [runDeploy, deploy, deployPipeline, initSt, DB.projectFiles, saveProjectFiles_apply,
          buildNextProject, hfind, hcond, hfw, hm, JsError.message] at he
        rcases he with h | h | h | h | h | h | h
        · subst h; exact ⟨rfl, rfl⟩
        · subst h; exact ⟨rfl, rfl⟩
        · subst h; exact ⟨rfl, rfl⟩
        · simp [isContainerStart, isProxyReload, hw e h]
        · subst h; exact ⟨rfl, rfl⟩
        · subst h; exact ⟨rfl, rfl⟩
        · subst h; exact ⟨rfl, rfl⟩
    · simp [hfw] at hm
      constructor
      · exact ⟨m, by simp [runDeploy, deploy, deployPipeline, initSt, DB.projectFiles, saveProjectFiles_apply,
          buildNextProject, hfind, hcond, hfw, hout, hm, JsError.message]⟩
      · intro e he
        simp [runDeploy, deploy, deployPipeline, initSt, DB.projectFiles, saveProjectFiles_apply,
          buildNextProject, hfind, hcond, hfw, hout, hm, JsError.message] at he
        rcases he with h | h | h | h | h | h | h | h | h | h
        · subst h; exact ⟨rfl, rfl⟩
        · subst h; exact ⟨rfl, rfl⟩
        · subst h; exact ⟨rfl, rfl⟩
        · simp [isContainerStart, isProxyReload, hw e h]
        · subst h; exact ⟨rfl, rfl⟩
        · subst h; exact ⟨rfl, rfl⟩
        · subst h; exact ⟨rfl, rfl⟩
        · subst h; exact ⟨rfl, rfl⟩
        · subst h; exact ⟨rfl, rfl⟩
        · subst h; exact ⟨rfl, rfl⟩

/-- Witness for C5: project 7 with a failing `npm install` — the error
log is persisted and the run contains no container-start and no
proxy-reload invocation. -/
theorem buildFailure_error_log_and_no_start_no_reload_witness :
    BuildLog.mk 1 "error" ("❌ Erro no build: " ++ "Command failed: npm install") ∈
      ((runDeploy envInstallFail dbSpa7 7 1 "m").2).db.build_logs ∧
    ((runDeploy envInstallFail dbSpa7 7 1 "m").2).trace.filter isContainerStart = [] ∧
    ((runDeploy envInstallFail dbSpa7 7 1 "m").2).trace.filter isProxyReload = [] := by
  have h := buildFailure_error_log_and_no_start_no_reload envInstallFail dbSpa7 7 1 "m"
    projReact7 (by decide) (Or.inl rfl) (by decide)
    (Or.inl ⟨"Command failed: npm install", rfl⟩)
  refine ⟨by decide, ?_, ?_⟩
  · rw [List.filter_eq_nil_iff]
    intro e he
    simp [(h.2 e he).1]
  · rw [List.filter_eq_nil_iff]
    intro e he
    simp [(h.2 e he).2]

theorem eventsBounded_bind {P : Event → Bool} {x : M α} {f : α → M β}
    (hx : eventsBounded P x) (hf : ∀ a, eventsBounded P (f a)) :
    eventsBounded P (M.bind x f) := by
  intro s e he
  unfold M.bind at he
  rcases hxs : x s with ⟨r, s1⟩
  rw [hxs] at he
  have hx1 : ∀ e2, e2 ∈ s1.trace → e2 ∈ s.trace ∨ P e2 = true := by
    intro e2 h2
    have h3 : e2 ∈ ((x s).2).trace := by rw [hxs]; exact h2
    exact hx s e2 h3
  cases r with
  | ok a =>
      have he2 : e ∈ ((f a s1).2).trace := he
      rcases hf a s1 e he2 with h | h
      · exact hx1 e h
      · exact Or.inr h
  | error e1 =>
      have he2 : e ∈ s1.trace := he
      exact hx1 e he2

theorem eventsBounded_tryCatch {P : Event → Bool} {x : M α} {h : JsError → M α}
    (hx : eventsBounded P x) (hh : ∀ e, eventsBounded P (h e)) :
    eventsBounded P (M.tryCatch x h) := by
  intro s e he
  unfold M.tryCatch at he
  rcases hxs : x s with ⟨r, s1⟩
  rw [hxs] at he
  have hx1 : ∀ e2, e2 ∈ s1.trace → e2 ∈ s.trace ∨ P e2 = true := by
    intro e2 h2
    have h3 : e2 ∈ ((x s).2).trace := by rw [hxs]; exact h2
    exact hx s e2 h3
  cases r with
  | ok a =>
      have he2 : e ∈ s1.trace := he
      exact hx1 e he2
  | error e1 =>
      have he2 : e ∈ ((h e1 s1).2).trace := he
      rcases hh e1 s1 e he2 with h2 | h2
      · exact hx1 e h2
      · exact Or.inr h2

theorem eventsBounded_ite {P : Event → Bool} {c : Prop} [Decidable c] {x y : M α}
    (hx : eventsBounded P x) (hy : eventsBounded P y) :
    eventsBounded P (if c then x else y) := by
  split
  · exact hx
  · exact hy

theorem eventsBounded_pure {P : Event → Bool} (a : α) : eventsBounded P (M.pure a) :=
  fun _ _ he => Or.inl he

theorem eventsBounded_throw {P : Event → Bool} (e0 : JsError) :
    eventsBounded P (M.throw e0 : M α) :=
  fun _ _ he => Or.inl he

theorem eventsBounded_getS {P : Event → Bool} : eventsBounded P M.getS :=
  fun _ _ he => Or.inl he

theorem eventsBounded_dateNow {P : Event → Bool} (env : Env) :
    eventsBounded P (dateNow env) :=
  fun _ _ he => Or.inl he

theorem eventsBounded_insertDeployment {P : Event → Bool} (pid : Nat) (msg : String) :
    eventsBounded P (insertDeployment pid msg) :=
  fun _ _ he => Or.inl he

theorem eventsBounded_markRunning {P : Event → Bool} (did : Nat) (cid cn url : String)
    (dur : Nat) : eventsBounded P (markRunning did cid cn url dur) :=
  fun _ _ he => Or.inl he

theorem eventsBounded_stopOtherRunning {P : Event → Bool} (pid did : Nat) :
    eventsBounded P (stopOtherRunning pid did) :=
  fun _ _ he => Or.inl he

theorem eventsBounded_emitEvent {P : Event → Bool} {ev : Event} (hP : P ev = true) :
    eventsBounded P (emitEvent ev) := by
  intro s e he
  have he2 : e ∈ s.trace ++ [ev] := he
  rcases List.mem_append.1 he2 with h | h
  · exact Or.inl h
  · rcases List.mem_singleton.1 h with rfl
    exact Or.inr hP

theorem eventsBounded_addBuildLog {P : Event → Bool}
    (hP : ∀ room msg2, P (Event.wsEmit room msg2) = true) (did : Nat) (t msg : String) :
    eventsBounded P (addBuildLog did t msg) := by
  intro s e he
  have he2 : e ∈ s.trace ++ [Event.wsEmit ("deployment-" ++ toString did) msg] := he
  rcases List.mem_append.1 he2 with h | h
  · exact Or.inl h
  · rcases List.mem_singleton.1 h with rfl
    exact Or.inr (hP _ _)

theorem eventsBounded_execPromise {P : Event → Bool} (env : Env) {site : ExecSite}
    {cmd : String} (hP : P (Event.execCmd site cmd) = true) :
    eventsBounded P (execPromise env site cmd) := by
  intro s e he
  unfold execPromise at he
  have he2 : e ∈ s.trace ++ [Event.execCmd site cmd] := by
    cases henv : env.exec cmd with
    | ok out => rw [henv] at he; exact he
    | error m => rw [henv] at he; exact he
  rcases List.mem_append.1 he2 with h | h
  · exact Or.inl h
  · rcases List.mem_singleton.1 h with rfl
    exact Or.inr hP

theorem eventsBounded_of_run {P : Event → Bool} {m : M α} (hm : eventsBounded P m)
    {s : St} {r : Except JsError α} {s2 : St} (hrun : m s = (r, s2)) :
    ∀ e ∈ s2.trace, e ∈ s.trace ∨ P e = true := by
  intro e he
  apply hm s e
  rw [hrun]
  exact he

theorem nb_wsEmit (room msg : String) :
    notHostInstallOrBuild (Event.wsEmit room msg) = true := rfl

theorem nb_of_execSite_none {e : Event} (h : e.execSite? = none) :
    notHostInstallOrBuild e = true := by
  cases e <;> simp_all [Event.execSite?, notHostInstallOrBuild, isHostInstallOrBuild]

theorem nb_saveProjectFiles (pid : Nat) (files : List FileRow) :
    eventsBounded notHostInstallOrBuild (saveProjectFiles pid files) := by
  intro s e he
  rw [saveProjectFiles_apply] at he
  have he2 : e ∈ s.trace ++
      (Event.fsMkdir (pathJoin deploysDir ("project-" ++ toString pid))
        :: writeEvents (pathJoin deploysDir ("project-" ++ toString pid)) files) := he
  rcases List.mem_append.1 he2 with h | h
  · exact Or.inl h
  · rcases List.mem_cons.1 h with rfl | h2
    · exact Or.inr rfl
    · exact Or.inr (nb_of_execSite_none (writeEvents_execSite _ _ e h2))

theorem nb_stopOldContainers (env : Env) (l : List Deployment) :
    eventsBounded notHostInstallOrBuild (stopOldContainers env l) := by
  induction l with
  | nil => exact eventsBounded_pure ()
  | cons dep rest ih =>
      unfold stopOldContainers
      cases dep.container_name with
      | some cn =>
          simp only [M.bind_def]
          apply eventsBounded_bind (eventsBounded_execPromise env rfl)
          intro _
          apply eventsBounded_bind (eventsBounded_execPromise env rfl)
          intro _
          exact ih
      | none => exact ih

theorem nb_createDockerfile (dir : String) (p : Project) :
    eventsBounded notHostInstallOrBuild (createDockerfile dir p) := by
  unfold createDockerfile
  simp only [M.bind_def]
  split
  · apply eventsBounded_bind (eventsBounded_emitEvent rfl)
    intro _
    exact eventsBounded_emitEvent rfl
  · split
    · exact eventsBounded_emitEvent rfl
    · split
      · exact eventsBounded_emitEvent rfl
      · exact eventsBounded_emitEvent rfl

theorem nb_createContainer (env : Env) (pid did : Nat) (p : Project) (dir : String) :
    eventsBounded notHostInstallOrBuild (createContainer env pid did p dir) := by
  unfold createContainer
  simp only [M.bind_def]
  apply eventsBounded_bind (eventsBounded_dateNow env)
  intro _
  apply eventsBounded_tryCatch
  · apply eventsBounded_bind (eventsBounded_addBuildLog nb_wsEmit _ _ _)
    intro _
    apply eventsBounded_bind (nb_createDockerfile _ _)
    intro _
    apply eventsBounded_bind (eventsBounded_addBuildLog nb_wsEmit _ _ _)
    intro _
    apply eventsBounded_bind (eventsBounded_execPromise env rfl)
    intro _
    apply eventsBounded_bind
    · apply eventsBounded_tryCatch
      · apply eventsBounded_bind eventsBounded_getS
        intro s
        exact nb_stopOldContainers env _
      · intro _; exact eventsBounded_pure ()
    · intro _
      apply eventsBounded_bind (eventsBounded_addBuildLog nb_wsEmit _ _ _)
      intro _
      apply eventsBounded_bind (eventsBounded_execPromise env rfl)
      intro _
      apply eventsBounded_bind (eventsBounded_addBuildLog nb_wsEmit _ _ _)
      intro _
      exact eventsBounded_pure _
  · intro e
    apply eventsBounded_bind (eventsBounded_addBuildLog nb_wsEmit _ _ _)
    intro _
    exact eventsBounded_throw e

theorem nb_configureNginx (env : Env) (pid port : Nat) (domain : Option String) :
    eventsBounded notHostInstallOrBuild (configureNginx env pid port domain) := by
  unfold configureNginx
  simp only [M.bind_def]
  apply eventsBounded_tryCatch
  · apply eventsBounded_bind (eventsBounded_emitEvent rfl)
    intro _
    apply eventsBounded_bind
    · exact eventsBounded_tryCatch (eventsBounded_emitEvent rfl)
        (fun _ => eventsBounded_pure ())
    · intro _
      apply eventsBounded_bind (eventsBounded_emitEvent rfl)
      intro _
      apply eventsBounded_bind (eventsBounded_execPromise env rfl)
      intro _
      apply eventsBounded_bind (eventsBounded_execPromise env rfl)
      intro _
      exact eventsBounded_pure _
  · intro e
    exact eventsBounded_throw e

theorem nb_finalizeDeploy (env : Env) (pid did : Nat) (p : Project) (dir : String)
    (t0 : Nat) : eventsBounded notHostInstallOrBuild (finalizeDeploy env pid did p dir t0) := by
  unfold finalizeDeploy
  simp only [M.bind_def, M.pure_def]
  apply eventsBounded_bind (nb_createContainer env _ _ _ _)
  intro ci
  apply eventsBounded_bind (eventsBounded_addBuildLog nb_wsEmit _ _ _)
  intro _
  apply eventsBounded_bind (nb_configureNginx env _ _ _)
  intro sn
  apply eventsBounded_bind (eventsBounded_dateNow env)
  intro t1
  apply eventsBounded_bind (eventsBounded_markRunning _ _ _ _ _)
  intro _
  apply eventsBounded_bind (eventsBounded_stopOtherRunning _ _)
  intro _
  apply eventsBounded_bind (eventsBounded_addBuildLog nb_wsEmit _ _ _)
  intro _
  apply eventsBounded_bind (eventsBounded_addBuildLog nb_wsEmit _ _ _)
  intro _
  exact eventsBounded_pure _

theorem nb_deployPipeline (env : Env) (pid : Nat) (p : Project) (did : Nat)
    (files : List FileRow) (t0 : Nat) (hfw : p.framework = "node") :
    eventsBounded notHostInstallOrBuild (deployPipeline env pid p did files t0) := by
  have h1 : (p.framework == "react" || p.framework == "html") = false := by rw [hfw]; rfl
  have h2 : (p.framework == "nextjs") = false := by rw [hfw]; rfl
  unfold deployPipeline
  simp only [M.bind_def, M.pure_def, h1, h2, Bool.false_eq_true, if_false]
  apply eventsBounded_ite
  · apply eventsBounded_bind (eventsBounded_throw _)
    intro _
    apply eventsBounded_bind (eventsBounded_addBuildLog nb_wsEmit _ _ _)
    intro _
    apply eventsBounded_bind (nb_saveProjectFiles _ _)
    intro dir
    apply eventsBounded_bind (eventsBounded_pure _)
    intro _
    exact nb_finalizeDeploy env _ _ _ _ _
  · apply eventsBounded_bind (eventsBounded_pure _)
    intro _
    apply eventsBounded_bind (eventsBounded_addBuildLog nb_wsEmit _ _ _)
    intro _
    apply eventsBounded_bind (nb_saveProjectFiles _ _)
    intro dir
    apply eventsBounded_bind (eventsBounded_pure _)
    intro _
    exact nb_finalizeDeploy env _ _ _ _ _

/-- C7 amended: for a project whose framework is `node`, the deploy
pipeline skips the Build Orchestrator entirely — neither a host-side
dependency-install nor a build command is ever invoked; dependency
installation happens only inside the image build (the generated
Dockerfile's `RUN npm install --production`). -/
theorem node_deploy_skips_build_orchestrator
    (env : Env) (db : DB) (pid uid : Nat) (msg : String) (p : Project)
    (hfind : db.findProject pid uid = some p)
    (hfw : p.framework = "node") :
    ∀ e ∈ ((runDeploy env db pid uid msg).2).trace, isHostInstallOrBuild e = false := by
  intro e he
  simp only [runDeploy, deploy, initSt, M.bind_def, M.pure_def, M.bind_apply, M.pure_apply,
    dateNow_apply, M.tryCatch_apply, M.getS_apply, insertDeployment_apply,
    addBuildLog_apply] at he
  rw [show (⟨db, [], 0⟩ : St).db.findProject pid uid = some p from hfind] at he
  split at he
  · rename_i a s1 heq
    have he2 : e ∈ s1.trace := he
    rcases eventsBounded_of_run (nb_deployPipeline env pid p _ _ _ hfw) heq e he2 with hmem | hP
    · simp at hmem
      subst hmem
      rfl
    · simpa [notHostInstallOrBuild] using hP
  · rename_i e2 s1 heq
    have he2 : e ∈ s1.trace := he
    rcases eventsBounded_of_run (nb_deployPipeline env pid p _ _ _ hfw) heq e he2 with hmem | hP
    · simp at hmem
      subst hmem
      rfl
    · simpa [notHostInstallOrBuild] using hP

/-- Witness for the amended C7 on the concrete `node` project 1. -/
theorem node_deploy_skips_build_orchestrator_witness :
    ((runDeploy envAllOk dbNode1 1 1 "m").2).trace.filter isHostInstallOrBuild = [] := by
  rw [List.filter_eq_nil_iff]
  intro e he
  have h := node_deploy_skips_build_orchestrator envAllOk dbNode1 1 1 "m" projNode1
    (by decide) rfl e he
  simp [h]

@[simp] theorem markRunning_apply (did : Nat) (cid cn url : String) (dur : Nat) (s : St) :
    markRunning did cid cn url dur s =
      (Except.ok (),
       { s with db := { s.db with deployments := s.db.deployments.map fun d =>
           if d.id == did then
             { d with status := "running", container_id := some cid,
                      container_name := some cn, url := some url,
                      build_duration := some dur }
           else d } }) := rfl

@[simp] theorem stopOtherRunning_apply (pid did : Nat) (s : St) :
    stopOtherRunning pid did s =
      (Except.ok (),
       { s with db := { s.db with deployments := s.db.deployments.map fun d =>
           if d.project_id == pid && d.id != did && d.status == "running" then
             { d with status := "stopped" }
           else d } }) := rfl

theorem deploymentsStable_run {m : M α} (hm : deploymentsStable m) {s : St}
    {r : Except JsError α} {s2 : St} (h : m s = (r, s2)) :
    s2.db.deployments = s.db.deployments := by
  have h2 := hm s
  rw [h] at h2
  exact h2

theorem finalizeDeploy_ok (env : Env) (pid did : Nat) (p : Project) (dir : String)
    (t0 : Nat) {s : St} {r : DeployResult} {s2 : St}
    (h : finalizeDeploy env pid did p dir t0 s = (Except.ok r, s2)) :
    (∃ cid cn url dur,
      s2.db.deployments =
        (s.db.deployments.map fun d =>
          if d.id == did then
            { d with status := "running", container_id := some cid,
                     container_name := some cn, url := some url,
                     build_duration := some dur }
          else d).map fun d =>
            if d.project_id == pid && d.id != did && d.status == "running" then
              { d with status := "stopped" }
            else d) ∧
    r.success = true ∧ r.deploymentId = some did := by
  unfold finalizeDeploy at h
  simp only [M.bind_def, M.pure_def] at h
  obtain ⟨ci, s3, hcc, h⟩ := M.bind_eq_ok h
  have hccd := deploymentsStable_run (deploymentsStable_createContainer env pid did p dir) hcc
  obtain ⟨u1, s4, hlog, h⟩ := M.bind_eq_ok h
  rw [addBuildLog_apply] at hlog
  obtain ⟨-, hlog2⟩ := Prod.mk.injEq .. |>.mp hlog
  subst hlog2
  obtain ⟨sn, s5, hng, h⟩ := M.bind_eq_ok h
  have hngd := deploymentsStable_run (deploymentsStable_configureNginx env pid ci.hostPort none) hng
  obtain ⟨t1, s6, hdn, h⟩ := M.bind_eq_ok h
  rw [dateNow_apply] at hdn
  obtain ⟨-, hdn2⟩ := Prod.mk.injEq .. |>.mp hdn
  subst hdn2
  obtain ⟨u2, s7, hmr, h⟩ := M.bind_eq_ok h
  rw [markRunning_apply] at hmr
  obtain ⟨-, hmr2⟩ := Prod.mk.injEq .. |>.mp hmr
  subst hmr2
  obtain ⟨u3, s8, hso, h⟩ := M.bind_eq_ok h
  rw [stopOtherRunning_apply] at hso
  obtain ⟨-, hso2⟩ := Prod.mk.injEq .. |>.mp hso
  subst hso2
  obtain ⟨u4, s9, hl3, h⟩ := M.bind_eq_ok h
  rw [addBuildLog_apply] at hl3
  obtain ⟨-, hl32⟩ := Prod.mk.injEq .. |>.mp hl3
  subst hl32
  obtain ⟨u5, s10, hl4, h⟩ := M.bind_eq_ok h
  rw [addBuildLog_apply] at hl4
  obtain ⟨-, hl42⟩ := Prod.mk.injEq .. |>.mp hl4
  subst hl42
  rw [M.pure_apply] at h
  obtain ⟨hr, hs2⟩ := Prod.mk.injEq .. |>.mp h
  subst hs2
  refine ⟨⟨ci.containerId, ci.containerName, "http://" ++ sn, (t1 - t0) / 1000, ?_⟩, ?_, ?_⟩
  · simp [hngd, hccd]
  · rw [← Except.ok.inj hr]
  · rw [← Except.ok.inj hr]

theorem unique_running_after_updates
    (l : List Deployment) (pid N : Nat) (cmsg cid cn url : String) (dur : Nat)
    (hwf : ∀ d ∈ l, d.id < N) :
    (((l ++ [(⟨N, pid, "building", none, none, none, cmsg, none⟩ : Deployment)]).map (fun d : Deployment =>
        if d.id == N then
          { d with status := "running", container_id := some cid,
                   container_name := some cn, url := some url, build_duration := some dur }
        else d)).map (fun d : Deployment =>
        if d.project_id == pid && d.id != N && d.status == "running" then
          { d with status := "stopped" } else d)).filter
        (fun d : Deployment => d.project_id == pid && d.status == "running") =
      [⟨N, pid, "running", some cid, some cn, some url, cmsg, some dur⟩] ∧
    (∀ d ∈ l, d.project_id = pid → d.status = "running" →
      ∃ d2 ∈ ((l ++ [(⟨N, pid, "building", none, none, none, cmsg, none⟩ : Deployment)]).map (fun d : Deployment =>
          if d.id == N then
            { d with status := "running", container_id := some cid,
                     container_name := some cn, url := some url, build_duration := some dur }
          else d)).map (fun d : Deployment =>
          if d.project_id == pid && d.id != N && d.status == "running" then
            { d with status := "stopped" } else d),
        d2.id = d.id ∧ d2.status = "stopped") := by
  constructor
  · rw [List.map_append, List.map_append, List.filter_append]
    have hnil : (((l.map (fun d : Deployment =>
        if d.id == N then
          { d with status := "running", container_id := some cid,
                   container_name := some cn, url := some url, build_duration := some dur }
        else d)).map (fun d : Deployment =>
        if d.project_id == pid && d.id != N && d.status == "running" then
          { d with status := "stopped" } else d)).filter
        (fun d : Deployment => d.project_id == pid && d.status == "running")) = [] := by
      rw [List.filter_eq_nil_iff]
      intro d2 hd2
      rcases List.mem_map.1 hd2 with ⟨d1, hd1, rfl⟩
      rcases List.mem_map.1 hd1 with ⟨d, hd, rfl⟩
      have hne : (d.id == N) = false := by
        simp [Nat.ne_of_lt (hwf d hd)]
      have hne2 : (d.id != N) = true := by
        simp [bne, hne]
      by_cases hproj : (d.project_id == pid) = true <;>
        by_cases hst : (d.status == "running") = true
      · simp [hne, hne2, hproj, hst]
      · simp [hne, hne2, hproj, hst]
      · simp [hne, hne2, hproj, hst]
      · simp [hne, hne2, hproj, hst]
    rw [hnil]
    simp
  · intro d hd hproj hst
    have hmem : d ∈ l ++ [(⟨N, pid, "building", none, none, none, cmsg, none⟩ : Deployment)] :=
      List.mem_append_left _ hd
    have hne : (d.id == N) = false := by
      simp [Nat.ne_of_lt (hwf d hd)]
    have hne2 : (d.id != N) = true := by
      simp [bne, hne]
    refine ⟨_, List.mem_map_of_mem _ (List.mem_map_of_mem _ hmem), ?_⟩
    simp [hne, hne2, hproj, hst]

/-- C1: after a deploy invocation completes successfully, exactly one
Deployment record of that project holds status `running` (the newly
created one), and every Deployment of the same project that previously
held status `running` has been transitioned to `stopped`.  The
well-formedness hypothesis says the `SERIAL` primary key is larger than
every existing row id. -/
theorem deploy_success_unique_running
    (env : Env) (db : DB) (pid uid : Nat) (msg : String) (r : DeployResult)
    (hwf : ∀ d ∈ db.deployments, d.id < db.nextDeploymentId)
    (h : (runDeploy env db pid uid msg).1 = Except.ok r) :
    r.success = true ∧
    r.deploymentId = some db.nextDeploymentId ∧
    (∃ dNew, ((runDeploy env db pid uid msg).2).db.deployments.filter
        (fun d : Deployment => d.project_id == pid && d.status == "running") = [dNew] ∧
      dNew.id = db.nextDeploymentId ∧ dNew.status = "running" ∧ dNew.project_id = pid) ∧
    (∀ d ∈ db.deployments, d.project_id = pid → d.status = "running" →
      ∃ d2 ∈ ((runDeploy env db pid uid msg).2).db.deployments,
        d2.id = d.id ∧ d2.status = "stopped") := by
  rcases hrun : runDeploy env db pid uid msg with ⟨res, s2⟩
  rw [hrun] at h
  have hres : res = Except.ok r := h
  subst hres
  cases hfind : db.findProject pid uid with
  | none =>
      simp only [runDeploy, deploy, initSt, M.bind_def, M.pure_def, M.bind_apply, M.pure_apply,
        dateNow_apply, M.tryCatch_apply, M.getS_apply] at hrun
      rw [show (⟨db, [], 0⟩ : St).db.findProject pid uid = none from hfind] at hrun
      simp at hrun
  | some p =>
      simp only [runDeploy, deploy, initSt, M.bind_def, M.pure_def, M.bind_apply, M.pure_apply,
        dateNow_apply, M.tryCatch_apply, M.getS_apply, insertDeployment_apply,
        addBuildLog_apply] at hrun
      rw [show (⟨db, [], 0⟩ : St).db.findProject pid uid = some p from hfind] at hrun
      simp only [M.bind_def, M.pure_def, M.bind_apply, M.pure_apply, M.getS_apply,
        insertDeployment_apply, addBuildLog_apply] at hrun
      split at hrun
      case _ a s1 heq =>
        obtain ⟨ha, hs⟩ := Prod.mk.injEq .. |>.mp hrun
        have ha2 := Except.ok.inj ha
        subst ha2
        subst hs
        unfold deployPipeline at heq
        simp only [M.bind_def, M.pure_def] at heq
        split at heq
        · -- empty file set: the pipeline throws, contradicting success
          simp only [M.bind_apply, M.throw_apply] at heq
          simp at heq
        · -- non-empty: peel the deterministic prefix
            obtain ⟨u1, sA, hA, heq⟩ := M.bind_eq_ok heq
            rw [M.pure_apply] at hA
            obtain ⟨-, hA2⟩ := Prod.mk.injEq .. |>.mp hA
            subst hA2
            obtain ⟨u2, sA2, hA3, heq⟩ := M.bind_eq_ok heq
            rw [addBuildLog_apply] at hA3
            obtain ⟨-, hA4⟩ := Prod.mk.injEq .. |>.mp hA3
            subst hA4
            obtain ⟨dirv, sB, hB, heq⟩ := M.bind_eq_ok heq
            rw [saveProjectFiles_apply] at hB
            obtain ⟨hBv, hB2⟩ := Prod.mk.injEq .. |>.mp hB
            subst hB2
            have hdirv := Except.ok.inj hBv
            subst hdirv
            split at heq
            · -- react/html build branch
              obtain ⟨b, sC, hbuild, heq⟩ := M.bind_eq_ok heq
              have hCd := deploymentsStable_run
                (deploymentsStable_buildReactProject env _ _ p) hbuild
              obtain ⟨u3, sD, hpure, heq⟩ := M.bind_eq_ok heq
              rw [M.pure_apply] at hpure
              obtain ⟨-, hp2⟩ := Prod.mk.injEq .. |>.mp hpure
              subst hp2
              obtain ⟨⟨cid, cn, urlv, dur, hdep⟩, hsucc, hdid⟩ :=
                finalizeDeploy_ok _ _ _ _ _ _ heq
              rw [hCd] at hdep
              dsimp only at hdep
              have hlist := unique_running_after_updates db.deployments pid db.nextDeploymentId
                msg cid cn urlv dur hwf
              refine ⟨hsucc, hdid, ⟨⟨db.nextDeploymentId, pid, "running", some cid, some cn,
                  some urlv, msg, some dur⟩, ?_, rfl, rfl, rfl⟩, ?_⟩
              · rw [hdep]
                exact hlist.1
              · intro d hd hproj hst
                obtain ⟨d2, hd2mem, hd2id, hd2st⟩ := hlist.2 d hd hproj hst
                refine ⟨d2, ?_, hd2id, hd2st⟩
                rw [hdep]
                exact hd2mem
            · split at heq
              · -- nextjs build branch
                obtain ⟨b, sC, hbuild, heq⟩ := M.bind_eq_ok heq
                have hCd := deploymentsStable_run
                  (deploymentsStable_buildNextProject env _ _ p) hbuild
                obtain ⟨u3, sD, hpure, heq⟩ := M.bind_eq_ok heq
                rw [M.pure_apply] at hpure
                obtain ⟨-, hp2⟩ := Prod.mk.injEq .. |>.mp hpure
                subst hp2
                obtain ⟨⟨cid, cn, urlv, dur, hdep⟩, hsucc, hdid⟩ :=
                  finalizeDeploy_ok _ _ _ _ _ _ heq
                rw [hCd] at hdep
                dsimp only at hdep
                have hlist := unique_running_after_updates db.deployments pid db.nextDeploymentId
                  msg cid cn urlv dur hwf
                refine ⟨hsucc, hdid, ⟨⟨db.nextDeploymentId, pid, "running", some cid, some cn,
                  some urlv, msg, some dur⟩, ?_, rfl, rfl, rfl⟩, ?_⟩
                · rw [hdep]
                  exact hlist.1
                · intro d hd hproj hst
                  obtain ⟨d2, hd2mem, hd2id, hd2st⟩ := hlist.2 d hd hproj hst
                  refine ⟨d2, ?_, hd2id, hd2st⟩
                  rw [hdep]
                  exact hd2mem
              · -- no-build branch
                obtain ⟨u3, sD, hpure, heq⟩ := M.bind_eq_ok heq
                rw [M.pure_apply] at hpure
                obtain ⟨-, hp2⟩ := Prod.mk.injEq .. |>.mp hpure
                subst hp2
                obtain ⟨⟨cid, cn, urlv, dur, hdep⟩, hsucc, hdid⟩ :=
                  finalizeDeploy_ok _ _ _ _ _ _ heq
                dsimp only at hdep
                have hlist := unique_running_after_updates db.deployments pid db.nextDeploymentId
                  msg cid cn urlv dur hwf
                refine ⟨hsucc, hdid, ⟨⟨db.nextDeploymentId, pid, "running", some cid, some cn,
                  some urlv, msg, some dur⟩, ?_, rfl, rfl, rfl⟩, ?_⟩
                · rw [hdep]
                  exact hlist.1
                · intro d hd hproj hst
                  obtain ⟨d2, hd2mem, hd2id, hd2st⟩ := hlist.2 d hd hproj hst
                  refine ⟨d2, ?_, hd2id, hd2st⟩
                  rw [hdep]
                  exact hd2mem
      case _ e2 s1 heq =>
        simp at hrun

/-- Witness for C1: redeploying project 7 over a previously `running`
deployment leaves exactly the new record (id 1) in status `running` and
the superseded record in status `stopped`. -/
theorem deploy_success_unique_running_witness :
    (((runDeploy envAllOk dbSpa7Running 7 1 "m").2).db.deployments.filter
        (fun d : Deployment => d.project_id == 7 && d.status == "running")).map
        Deployment.id = [1] ∧
    ((runDeploy envAllOk dbSpa7Running 7 1 "m").2).db.deployments.map Deployment.status =
      ["stopped", "running"] := by
  have h := deploy_success_unique_running envAllOk dbSpa7Running 7 1 "m"
    (DeployResult.mk true (some 1) (some "http://project-7.local") (some 0) none)
    (by decide) (by decide)
  obtain ⟨-, -, ⟨dNew, hfil, hid, -, -⟩, -⟩ := h
  constructor
  · rw [hfil]
    simp [hid, dbSpa7Running]
  · decide
